import Mathlib

/-!
# VisionSorter — verification of the natural-language specification

Shallow embedding of the VisionSorter backend (FastAPI service, SQLite
persistence layer, ΔE2000 clustering engine, color utility library and the
synthetic bead generator) together with theorems settling the frozen claims.

Conventions of the embedding:
* Machine floats of the Python source are modelled as exact rationals (`ℚ`);
  the one place where a transcendental function appears (the drop-shadow
  exponential of the bead generator) is modelled over `ℝ` with `Real.exp`.
* The CIEDE2000 colour-difference formula lives in the third-party
  colour-science library (excluded from the reviewed source, specified only
  by its contract); every definition that calls it is parametrised by a
  distance function `dE`.
* Python dictionaries iterated in insertion order are modelled as
  association lists, `None` as `Option.none`, exceptions as sum types.
-/

namespace VisionSorter

/-! ## Color Utility Library (`src/server/utils/imgtool.py`) -/

/-- A LAB colour triple, one per pixel. -/
structure LabPix where
  L : ℚ
  a : ℚ
  b : ℚ
  deriving DecidableEq, Repr

/-- Contract of `np.median` on a 1-D array: middle element of the sorted
data for odd length, average of the two middle elements for even length.
(`numpy` is third-party; this is the behaviour the source relies on.) -/
def npMedian (xs : List ℚ) : ℚ :=
  let s := xs.mergeSort (fun x y => decide (x ≤ y))
  let n := xs.length
  if n % 2 = 1 then s.getD (n / 2) 0
  else (s.getD (n / 2 - 1) 0 + s.getD (n / 2) 0) / 2

/-- Contract of `np.mean` on a 1-D array: arithmetic mean. -/
def npMean (xs : List ℚ) : ℚ := xs.sum / xs.length

/-- `imgtool.extract_lab_from_mask`: a LAB image together with its mask,
listed pixel by pixel as pairs `(mask value, LAB value)`; the source keeps
the LAB pixels whose mask entry is positive (`lab_image[mask > 0]`),
returns the neutral fallback `[50.0, 0.0, 0.0]` when none are selected and
otherwise reduces the selection per channel with `np.median`
(`use_median=True`, the default) or `np.mean`. -/
def extract_lab_from_mask (pixels : List (ℕ × LabPix)) (use_median : Bool) :
    LabPix :=
  let masked_lab := (pixels.filter (fun p => 0 < p.1)).map (·.2)
  if masked_lab.length = 0 then ⟨50, 0, 0⟩
  else if use_median then
    ⟨npMedian (masked_lab.map (·.L)), npMedian (masked_lab.map (·.a)),
      npMedian (masked_lab.map (·.b))⟩
  else
    ⟨npMean (masked_lab.map (·.L)), npMean (masked_lab.map (·.a)),
      npMean (masked_lab.map (·.b))⟩

/-- Per-channel median of a list of LAB pixels, written from the spec's
words ("compute the per-channel median") for comparison with the source. -/
def perChannelMedian (sel : List LabPix) : LabPix :=
  ⟨npMedian (sel.map (·.L)), npMedian (sel.map (·.a)),
    npMedian (sel.map (·.b))⟩

/-- Per-channel mean of a list of LAB pixels, written from the spec's
words ("or mean") for comparison with the source. -/
def perChannelMean (sel : List LabPix) : LabPix :=
  ⟨npMean (sel.map (·.L)), npMean (sel.map (·.a)),
    npMean (sel.map (·.b))⟩

/-- The pixels a mask selects from an image. -/
def selectedPixels (pixels : List (ℕ × LabPix)) : List LabPix :=
  (pixels.filter (fun p => 0 < p.1)).map (·.2)

end VisionSorter

namespace VisionSorter

/-! ## Folder-path inference (`src/server/main.py`, `parse_folder_path`) -/

/-- Outcome of `POST /api/parse-folder-path`, constructors mirroring the
source's three exit points: the 400 for an empty list, the success object
with `method="extracted_from_full_path"`, the success object with
`method="resolved_from_relative_path"`, and the final 400 ("无法从文件路径
中解析文件夹路径"). -/
inductive ParseFolderResult where
  | emptyListError : ParseFolderResult
  | extractedFromFullPath (folder : List Char) : ParseFolderResult
  | resolvedFromRelativePath (folder : List Char) : ParseFolderResult
  | unresolvableError : ParseFolderResult
  deriving DecidableEq, Repr

/-- Python's `s.rsplit(sep, 1)[0]` for a character `sep` that occurs in
`s`: everything strictly before the last occurrence of `sep`. -/
def rsplitBeforeLast (sep : Char) (s : List Char) : List Char :=
  (((s.reverse.dropWhile (fun c => c ≠ sep)).drop 1)).reverse

/-- Python's `os.path.join(cwd, p)` for the relative `p` reached in the
source's else-branch (where `p` does not start with a separator). -/
def pyPathJoin (cwd p : List Char) : List Char := cwd ++ '/' :: p

/-- `main.parse_folder_path`: takes the client-supplied file-path list, the
service's working directory and an oracle `isDir` standing for
`os.path.exists(p) and os.path.isdir(p)`.  Mirrors the source: an empty
list is a 400; otherwise only the first entry is examined; only when it
contains `'/'` or `'\\'` is a folder part split off, returned directly when
the heuristic (`folder[1] = ':'` or a leading `'/'`) deems it absolute, and
otherwise resolved against the working directory; every other path of
control reaches the final 400. -/
def parse_folder_path (file_paths : List (List Char)) (cwd : List Char)
    (isDir : List Char → Bool) : ParseFolderResult :=
  match file_paths with
  | [] => .emptyListError
  | first_path :: _ =>
    if '/' ∈ first_path ∨ '\\' ∈ first_path then
      let folder_path :=
        if '/' ∈ first_path then rsplitBeforeLast '/' first_path
        else rsplitBeforeLast '\\' first_path
      let is_absolute :=
        (2 ≤ folder_path.length ∧ folder_path.getD 1 ' ' = ':') ∨
          folder_path.head? = some '/'
      if is_absolute then .extractedFromFullPath folder_path
      else
        let potential_path := pyPathJoin cwd folder_path
        if isDir potential_path then .resolvedFromRelativePath potential_path
        else .unresolvableError
    else .unresolvableError

end VisionSorter

namespace VisionSorter

/-! ## Detection (`src/server/main.py`, `process_single_image`)

`process_single_image` walks the caller-supplied `clusters` dictionary
(`{cluster_id_str: {lab_mean, de2000_intra_max, ...}}`), skips entries
whose `lab_mean` is not a length-3 list, keeps the first entry attaining
the strictly smallest CIEDE2000 distance to the image's LAB vector
(`if distance < best_distance`, starting from `float('inf')`), re-looks the
winner up by id (`clusters.get(str(best_cluster_id), {})`, with
`de2000_intra_max` defaulting to `0.0`), and accepts iff the winning
distance is at most `de2000_intra_max * max_scale`. -/

/-- One entry of the `clusters` dictionary, in iteration order: the key
parsed as an integer, the `lab_mean` list and the `de2000_intra_max`
statistic (already defaulted to `0.0` when the key is missing, as
`cluster_info.get('de2000_intra_max', 0.0)` does). -/
structure ClusterEntry where
  cid : ℤ
  labMean : List ℚ
  intraMax : ℚ
  deriving DecidableEq, Repr

/-- An entry takes part in the distance search iff `len(lab_mean) == 3`. -/
def ClusterEntry.wf (e : ClusterEntry) : Bool := e.labMean.length = 3

/-- The source's best-cluster loop: fold over the dictionary entries,
replacing the running best exactly when the entry is well-formed and its
distance is strictly below the running best (`float('inf')` initially,
modelled by `none`). -/
def findBestAux (dE : List ℚ → List ℚ → ℚ) (lab : List ℚ)
    (best : Option (ℤ × ℚ)) : List ClusterEntry → Option (ℤ × ℚ)
  | [] => best
  | e :: rest =>
    if e.wf then
      let d := dE lab e.labMean
      match best with
      | none => findBestAux dE lab (some (e.cid, d)) rest
      | some (c₀, d₀) =>
        if d < d₀ then findBestAux dE lab (some (e.cid, d)) rest
        else findBestAux dE lab (some (c₀, d₀)) rest
    else findBestAux dE lab best rest

/-- Steps 1 of `process_single_image`: the nearest cluster id and its
distance, `none` when no entry is well-formed. -/
def findBest (dE : List ℚ → List ℚ → ℚ) (lab : List ℚ)
    (clusters : List ClusterEntry) : Option (ℤ × ℚ) :=
  findBestAux dE lab none clusters

/-- The three status strings of `process_single_image`:
`'已归类'`, `'距离过远'`, `'未归类'`. -/
inductive DetectStatus where
  | classified : DetectStatus
  | tooFar : DetectStatus
  | unclassified : DetectStatus
  deriving DecidableEq, Repr

/-- The fields of the per-image result object the claims inspect
(`matched_cluster_id`, `distance`, `status`); `distance = none` encodes the
`float('inf')` returned when no entry was well-formed. -/
structure DetectOutcome where
  matched : Option ℤ
  distance : Option ℚ
  status : DetectStatus
  deriving DecidableEq, Repr

/-- `clusters.get(str(best_cluster_id), {}).get('de2000_intra_max', 0.0)`:
first entry with the given id, defaulting to `0.0`. -/
def lookupIntraMax (clusters : List ClusterEntry) (c : ℤ) : ℚ :=
  match clusters.find? (fun e => e.cid = c) with
  | some e => e.intraMax
  | none => 0

/-- `main.process_single_image`, its decision core: nearest-cluster search
followed by the threshold test `best_distance <= de2000_intra_max *
max_scale`, parametrised by the colour-science library's CIEDE2000
distance `dE`. -/
def process_single_image (dE : List ℚ → List ℚ → ℚ)
    (clusters : List ClusterEntry) (max_scale : ℚ) (lab : List ℚ) :
    DetectOutcome :=
  match findBest dE lab clusters with
  | none => ⟨none, none, .unclassified⟩
  | some (c, d) =>
    let threshold := lookupIntraMax clusters c * max_scale
    if d ≤ threshold then ⟨some c, some d, .classified⟩
    else ⟨none, some d, .tooFar⟩

end VisionSorter

namespace VisionSorter

/-! ## Persistence Layer (`src/server/utils/db.py`)

The three tables are modelled as lists of rows held in insertion order;
`AUTOINCREMENT` ids make that order coincide with ascending `id`.  Only the
columns the claims inspect are carried in full; the summary rows keep an
opaque payload. -/

/-- One row of `task_images`. -/
structure TaskImageRow where
  rowId : ℤ
  taskDbId : ℤ
  taskType : String
  filename : List Char
  clusterId : Option ℤ
  deriving DecidableEq, Repr

/-- One summary row of `cluster_results` / `detection_results`. -/
structure SummaryRow where
  rowId : ℤ
  payload : String
  deriving DecidableEq, Repr

/-- The embedded store: the two summary tables plus `task_images`. -/
structure DbState where
  clusterResults : List SummaryRow
  detectionResults : List SummaryRow
  taskImages : List TaskImageRow
  deriving DecidableEq, Repr

/-- `db.delete_cluster_result`: `DELETE FROM cluster_results WHERE id = ?`,
success iff `cur.rowcount > 0`, and only then
`DELETE FROM task_images WHERE task_db_id = ? AND task_type = 'cluster'`. -/
def delete_cluster_result (db : DbState) (result_id : ℤ) : Bool × DbState :=
  let remaining := db.clusterResults.filter (fun r => r.rowId ≠ result_id)
  let success := remaining.length < db.clusterResults.length
  if success then
    (true,
      { db with
        clusterResults := remaining
        taskImages := db.taskImages.filter
          (fun r => ¬(r.taskDbId = result_id ∧ r.taskType = "cluster")) })
  else (false, db)

/-- `db.delete_detection_result`: same shape over `detection_results`,
cascading the `task_type = 'detect'` image rows. -/
def delete_detection_result (db : DbState) (result_id : ℤ) : Bool × DbState :=
  let remaining := db.detectionResults.filter (fun r => r.rowId ≠ result_id)
  let success := remaining.length < db.detectionResults.length
  if success then
    (true,
      { db with
        detectionResults := remaining
        taskImages := db.taskImages.filter
          (fun r => ¬(r.taskDbId = result_id ∧ r.taskType = "detect")) })
  else (false, db)

/-- HTTP outcome of `DELETE /api/delete-result/{result_id}`. -/
inductive DeleteHttp where
  | ok200 : DeleteHttp
  | notFound404 : DeleteHttp
  deriving DecidableEq, Repr

/-- `main.delete_result`: dispatch on the `type` query parameter (anything
other than `"detect"` deletes a cluster result), 200 on success, 404
otherwise. -/
def delete_result (db : DbState) (result_id : ℤ) (type_ : String) :
    DeleteHttp × DbState :=
  let r := if type_ = "detect" then delete_detection_result db result_id
           else delete_cluster_result db result_id
  (if r.1 then .ok200 else .notFound404, r.2)

/-- Python's `needle in haystack` on strings, as `filename LIKE '%…%'`
evaluates it. -/
def strContains (haystack needle : List Char) : Bool :=
  decide (needle <:+: haystack)

/-- The `WHERE` clause `get_task_images` assembles: owning task id and
type always, `filename LIKE ?` when `search` is nonempty, and the
cluster-id filter where the `-1` sentinel selects `cluster_id IS NULL`. -/
def taskImageMatches (task_db_id : ℤ) (task_type : String)
    (search : List Char) (cluster_id : Option ℤ) (r : TaskImageRow) : Bool :=
  r.taskDbId = task_db_id && r.taskType = task_type &&
    (search.isEmpty || strContains r.filename search) &&
    (match cluster_id with
      | none => true
      | some (-1) => r.clusterId = none
      | some c => r.clusterId = some c)

/-- What `GET /api/task-images/...` returns: the page of rows plus the
total row count of the filtered set. -/
structure TaskImagesPage where
  items : List TaskImageRow
  total : ℕ
  deriving DecidableEq, Repr

/-- `db.get_task_images`: filter `task_images`, count the matches
(`SELECT COUNT(*)`), then page through them with
`ORDER BY id ASC LIMIT page_size OFFSET (page-1)*page_size`.  The table is
kept in ascending-`id` order, so `ORDER BY id ASC` is the identity; a
non-positive `page` yields offset `0`, matching SQLite's clamping of a
negative `OFFSET`. -/
def get_task_images (table : List TaskImageRow) (task_db_id : ℤ)
    (task_type : String) (page page_size : ℕ) (search : List Char)
    (cluster_id : Option ℤ) : TaskImagesPage :=
  let offset := (page - 1) * page_size
  let filtered :=
    table.filter (taskImageMatches task_db_id task_type search cluster_id)
  { items := (filtered.drop offset).take page_size
    total := filtered.length }

end VisionSorter

namespace VisionSorter

/-! ## Clustering Engine (`src/server/utils/color_clustering.py`)

`cluster_images_by_color_de2000` rejects `N < K`, returns singleton
clusters when `N == K` (without the `de2000_intra_mean/max` keys, which
only the general branch writes), and otherwise groups the samples by the
labels produced by `sklearn`'s `AgglomerativeClustering` — third-party,
relied upon only for producing one label in `{0, …, K-1}` per sample — and
computes per-cluster statistics.  `np.std` (which needs a square root) is
kept as a contract parameter `npStd`; `dE` is the CIEDE2000 contract. -/

/-- Contract of `np.max` on a 1-D array. -/
def npMax (xs : List ℚ) : ℚ := xs.foldr max 0

/-- `np.mean(vs, axis=0)` on an `(m, 3)` array: the per-column mean. -/
def columnMean (vs : List (List ℚ)) : List ℚ :=
  (List.range 3).map (fun j => npMean (vs.map (fun v => v.getD j 0)))

/-- `np.std(vs, axis=0)` on an `(m, 3)` array, per-column through the
`npStd` contract parameter. -/
def columnStd (npStd : List ℚ → ℚ) (vs : List (List ℚ)) : List ℚ :=
  (List.range 3).map (fun j => npStd (vs.map (fun v => v.getD j 0)))

/-- The `i < j` all-pairs distances of the intra-cluster loop. -/
def upperPairDists (dE : List ℚ → List ℚ → ℚ) : List (List ℚ) → List ℚ
  | [] => []
  | v :: rest => rest.map (dE v) ++ upperPairDists dE rest

/-- One value of the `clusters` dictionary the engine returns.  The two
`de2000_intra_*` fields are `Option`s because the `N == K` branch of the
source never writes those keys. -/
structure ClusterInfo where
  images : List String
  indices : List ℕ
  lab_mean : List ℚ
  lab_std : List ℚ
  de2000_mean : ℚ
  de2000_max : ℚ
  de2000_std : ℚ
  de2000_intra_mean : Option ℚ
  de2000_intra_max : Option ℚ
  count : ℕ
  deriving DecidableEq, Repr

/-- The statistics block the general branch computes for the sample
indices carried by one label value. -/
def clusterStats (dE : List ℚ → List ℚ → ℚ) (npStd : List ℚ → ℚ)
    (lab_vectors : List (List ℚ)) (image_paths : List String)
    (cluster_indices : List ℕ) : ClusterInfo :=
  let cluster_lab_vectors := cluster_indices.map (fun i => lab_vectors.getD i [])
  let lab_mean := columnMean cluster_lab_vectors
  let de2000_distances := cluster_lab_vectors.map (fun v => dE lab_mean v)
  let pair_dists := upperPairDists dE cluster_lab_vectors
  let intra :=
    if 1 < cluster_indices.length then
      (npMean pair_dists, npMax pair_dists, npStd pair_dists)
    else ((0 : ℚ), (0 : ℚ), (0 : ℚ))
  { images := cluster_indices.map (fun i => image_paths.getD i "")
    indices := cluster_indices
    lab_mean := lab_mean
    lab_std := columnStd npStd cluster_lab_vectors
    de2000_mean := npMean de2000_distances
    de2000_max := npMax de2000_distances
    de2000_std := npStd de2000_distances
    de2000_intra_mean := some intra.1
    de2000_intra_max := some intra.2.1
    count := cluster_indices.length }

/-- `color_clustering.cluster_images_by_color_de2000`: the three branches
of the source, with `labels` the output of the (third-party) hierarchical
clustering — one label per sample, each in `{0, …, n_clusters-1}`. -/
def cluster_images_by_color_de2000 (dE : List ℚ → List ℚ → ℚ)
    (npStd : List ℚ → ℚ) (lab_vectors : List (List ℚ))
    (image_paths : List String) (n_clusters : ℕ) (labels : List ℕ) :
    Except String (List (ℕ × ClusterInfo)) :=
  let n_samples := lab_vectors.length
  if n_samples < n_clusters then
    .error "sample count below requested cluster count"
  else if n_samples = n_clusters then
    .ok ((List.range n_samples).map (fun i =>
      (i, { images := [image_paths.getD i ""]
            indices := [i]
            lab_mean := lab_vectors.getD i []
            lab_std := [0, 0, 0]
            de2000_mean := 0
            de2000_max := 0
            de2000_std := 0
            de2000_intra_mean := none
            de2000_intra_max := none
            count := 1 })))
  else
    .ok ((List.range n_clusters).map (fun cluster_id =>
      (cluster_id,
        clusterStats dE npStd lab_vectors image_paths
          ((List.range n_samples).filter (fun i => labels.getD i 0 = cluster_id)))))

/-- The concatenation, in cluster order, of every cluster's member index
list — the object the hard-partition invariant speaks about. -/
def memberIndices (cs : List (ℕ × ClusterInfo)) : List ℕ :=
  (cs.map (fun p => p.2.indices)).flatten

end VisionSorter

namespace VisionSorter

/-! ## Streaming detection (`src/server/main.py`, `websocket_detect_images`)

The endpoint's post-validation behaviour: after the `start` message, each
iteration polls (`asyncio.wait_for(websocket.receive(), timeout=0.01)`)
for a client message; a cancel signal sends `cancelled` with
`processed = idx` and `break`s, after which control falls to the `completed`
send below the loop; otherwise the image is processed and a `progress`
message is sent.  The per-iteration poll result is modelled by a schedule
`poll : ℕ → Option RecvData` (`none` = `asyncio.TimeoutError`), and the
per-image `process_single_image` call by `proc`. -/

/-- The parsed-JSON part of a received ASGI message, as the source reads
it (`cancel_data.get('json')`): an object with its entries; Python
truthiness of the object is emptiness of the entry list. -/
structure RecvJson where
  entries : List (String × String)
  deriving DecidableEq, Repr

/-- A received client message as the source inspects it:
`cancel_data.get('type')`, `cancel_data.get('text', '')`,
`cancel_data.get('json')`. -/
structure RecvData where
  rtype : String
  text : String
  json : Option RecvJson
  deriving DecidableEq, Repr

/-- The source's cancel test:
`cancel_data.get('type') == 'websocket.receive'` and then
`(text_data == 'cancel') or (json_data and json_data.get('type') == 'cancel')`. -/
def isCancelSignal (d : RecvData) : Bool :=
  d.rtype = "websocket.receive" &&
    (d.text = "cancel" ||
      (match d.json with
        | some j => !j.entries.isEmpty && j.entries.lookup "type" == some "cancel"
        | none => false))

/-- The messages the websocket endpoint sends. -/
inductive WsMsg where
  | start (total : ℕ)
  | progress (index total : ℕ) (result : DetectOutcome)
  | cancelled (processed total : ℕ)
  | completed (total classified : ℕ)
  deriving DecidableEq, Repr

/-- The per-image loop plus the `completed` send that follows it, carrying
the running index and `classified_count`. -/
def ws_detect_loop {α : Type} (poll : ℕ → Option RecvData)
    (proc : α → DetectOutcome) (total : ℕ) :
    List α → ℕ → ℕ → List WsMsg
  | [], _, cls => [.completed total cls]
  | img :: rest, idx, cls =>
    let gotCancel :=
      match poll idx with
      | some d => isCancelSignal d
      | none => false
    if gotCancel then [.cancelled idx total, .completed total cls]
    else
      let r := proc img
      let cls' := if r.matched ≠ none then cls + 1 else cls
      .progress idx total r :: ws_detect_loop poll proc total rest (idx + 1) cls'

/-- `main.websocket_detect_images` from the `start` message on (directory
validation and image enumeration happen upstream of the claims): `start`
with the total, then the cancellable per-image loop, then `completed`. -/
def websocket_detect_images {α : Type} (poll : ℕ → Option RecvData)
    (proc : α → DetectOutcome) (images : List α) : List WsMsg :=
  .start images.length :: ws_detect_loop poll proc images.length images 0 0

end VisionSorter

namespace VisionSorter

/-! ## Synthetic bead drop shadow (`scripts/generate_color_variants.py`,
`generate_3d_bead`, the `底部投影` block)

The source stamps, for every pixel `(x, y)`, a shadow value that is
nonzero exactly inside the ellipse `dist_x² + dist_y² ≤ 1` where
`dist_x = (x - shadow_center_x) / shadow_radius`,
`dist_y = (y - shadow_center_y) / (shadow_radius * 0.5)`,
`shadow_center = (center_x + 3, center_y + radius * 0.7)` and
`shadow_radius = radius * 0.6`; inside, the value is
`exp(-sqrt(dist_x² + dist_y²) * 3) * shadow_intensity * 0.3`, and the
stamp is then restricted to the background by `* (1 - mask / 255)`. -/

/-- `radius = diameter // 2`. -/
def beadRadius (diameter : ℕ) : ℕ := diameter / 2

/-- The squared elliptical distance `dist_x² + dist_y²` of the source's
drop-shadow loop, with the source's semi-axes `0.6·r` (horizontal) and
`0.3·r` (vertical); exact rational arithmetic. -/
def shadowDistSq (size diameter x y : ℕ) : ℚ :=
  let r : ℚ := (beadRadius diameter : ℚ)
  let cx : ℚ := ((size / 2 : ℕ) : ℚ)
  let cy : ℚ := ((size / 2 : ℕ) : ℚ)
  let shadow_radius := r * (6 / 10)
  let dist_x := ((x : ℚ) - (cx + 3)) / shadow_radius
  let dist_y := ((y : ℚ) - (cy + r * (7 / 10))) / (shadow_radius * (1 / 2))
  dist_x ^ 2 + dist_y ^ 2

/-- The value the source writes into `shadow_ellipse_mask[y, x]`. -/
noncomputable def shadow_ellipse_mask (size diameter : ℕ)
    (shadow_intensity : ℝ) (x y : ℕ) : ℝ :=
  if shadowDistSq size diameter x y ≤ 1 then
    Real.exp (-Real.sqrt ((shadowDistSq size diameter x y : ℚ) : ℝ) * 3) *
      shadow_intensity * (3 / 10)
  else 0

/-- `mask[y, x] > 0` of `create_circular_mask`: the pixel lies in the bead
circle `(x - cx)² + (y - cy)² ≤ radius²` (integer coordinates). -/
def inBeadCircle (size diameter x y : ℕ) : Prop :=
  ((x : ℤ) - ((size / 2 : ℕ) : ℤ)) ^ 2 + ((y : ℤ) - ((size / 2 : ℕ) : ℤ)) ^ 2 ≤
    ((beadRadius diameter : ℕ) : ℤ) ^ 2

instance (size diameter x y : ℕ) : Decidable (inBeadCircle size diameter x y) := by
  unfold inBeadCircle; infer_instance

/-- `shadow_on_bg = shadow_ellipse_mask * (1 - mask / 255)`: the stamp as
it lands on the background. -/
noncomputable def shadow_on_bg (size diameter : ℕ) (shadow_intensity : ℝ)
    (x y : ℕ) : ℝ :=
  if inBeadCircle size diameter x y then 0
  else shadow_ellipse_mask size diameter shadow_intensity x y

/-- The squared elliptical distance under the SPEC's claimed geometry —
semi-axes `r` (horizontal) and `0.5·r` (vertical), same centre offset
`(3, 0.7·r)` — written from the spec's words for comparison with the
source. -/
def specShadowDistSq (size diameter x y : ℕ) : ℚ :=
  let r : ℚ := (beadRadius diameter : ℚ)
  let cx : ℚ := ((size / 2 : ℕ) : ℚ)
  let cy : ℚ := ((size / 2 : ℕ) : ℚ)
  let dist_x := ((x : ℚ) - (cx + 3)) / r
  let dist_y := ((y : ℚ) - (cy + r * (7 / 10))) / (r * (1 / 2))
  dist_x ^ 2 + dist_y ^ 2

/-- The drop-shadow value under the spec's claimed geometry: confined to
the `(r, 0.5·r)` ellipse with exponential falloff coefficient 3 scaled by
the shadow intensity. -/
noncomputable def specShadowValue (size diameter : ℕ)
    (shadow_intensity : ℝ) (x y : ℕ) : ℝ :=
  if specShadowDistSq size diameter x y ≤ 1 then
    Real.exp (-Real.sqrt ((specShadowDistSq size diameter x y : ℚ) : ℝ) * 3) *
      shadow_intensity * (3 / 10)
  else 0

end VisionSorter

namespace VisionSorter

/-! ## Theorems -/

/-- **C10** — For every request to `POST /api/parse-folder-path` whose
first file-path entry contains neither a forward slash nor a backslash,
the endpoint returns the 400 invalid-input error, whatever the working
directory contains (working-directory-relative resolution is only
attempted for entries with a path separator). -/
theorem parse_folder_path_no_separator_400
    (file_paths : List (List Char)) (cwd : List Char)
    (isDir : List Char → Bool) (first_path : List Char)
    (rest : List (List Char)) (hcons : file_paths = first_path :: rest)
    (h1 : '/' ∉ first_path) (h2 : '\\' ∉ first_path) :
    parse_folder_path file_paths cwd isDir = .unresolvableError := by
  subst hcons
  simp [parse_folder_path, h1, h2]

/-- Witness for C10: the entry `"file.png"` names no separator, so even
with a directory oracle that reports every path as an existing directory
the endpoint answers 400. -/
theorem parse_folder_path_no_separator_400_witness :
    parse_folder_path [['f', 'i', 'l', 'e', '.', 'p', 'n', 'g']]
      ['/', 't', 'm', 'p'] (fun _ => true) = .unresolvableError :=
  parse_folder_path_no_separator_400 _ _ _
    ['f', 'i', 'l', 'e', '.', 'p', 'n', 'g'] [] rfl
    (by decide) (by decide)

/-- **C8** — LAB vector aggregation returns exactly `[50.0, 0.0, 0.0]`
when the mask selects no pixel (in particular on an all-zero mask), and
otherwise the per-channel median of the selected pixels by default, or the
per-channel mean when the mean option is chosen. -/
theorem extract_lab_from_mask_spec :
    (∀ (pixels : List (ℕ × LabPix)) (use_median : Bool),
        (∀ p ∈ pixels, p.1 = 0) →
        extract_lab_from_mask pixels use_median = ⟨50, 0, 0⟩) ∧
    (∀ pixels : List (ℕ × LabPix),
        selectedPixels pixels ≠ [] →
        extract_lab_from_mask pixels true =
            perChannelMedian (selectedPixels pixels) ∧
          extract_lab_from_mask pixels false =
            perChannelMean (selectedPixels pixels)) := by
  have hrw : ∀ (px : List (ℕ × LabPix)) (um : Bool),
      extract_lab_from_mask px um =
        if (selectedPixels px).length = 0 then ⟨50, 0, 0⟩
        else if um then perChannelMedian (selectedPixels px)
        else perChannelMean (selectedPixels px) := fun _ _ => rfl
  constructor
  · intro pixels use_median h
    have hfil : pixels.filter (fun p => 0 < p.1) = [] :=
      List.filter_eq_nil_iff.mpr (by
        intro p hp
        simp [h p hp])
    have hsel : selectedPixels pixels = [] := by
      simp [selectedPixels, hfil]
    rw [hrw, hsel]
    simp
  · intro pixels h
    have hne : ¬(selectedPixels pixels).length = 0 := by
      intro h0
      exact h (List.eq_nil_of_length_eq_zero h0)
    constructor
    · rw [hrw, if_neg hne]
      simp
    · rw [hrw, if_neg hne]
      simp

/-- Witness for C8: an all-zero single-pixel mask yields the neutral
fallback; a selecting mask yields the per-channel median. -/
theorem extract_lab_from_mask_spec_witness :
    extract_lab_from_mask [(0, ⟨10, 20, 30⟩)] true = ⟨50, 0, 0⟩ ∧
    extract_lab_from_mask [(255, ⟨10, 20, 30⟩)] true =
      perChannelMedian (selectedPixels [(255, ⟨10, 20, 30⟩)]) :=
  ⟨extract_lab_from_mask_spec.1 [(0, ⟨10, 20, 30⟩)] true (by decide),
   (extract_lab_from_mask_spec.2 [(255, ⟨10, 20, 30⟩)] (by decide)).1⟩

end VisionSorter

namespace VisionSorter

/-- **C5** — Deleting a stored summary record of either task type by id
removes the summary row and every `task_images` row bound to that id and
that task type (their count becomes 0) and answers 200, leaving the other
summary table untouched; deleting an id with no summary row of that type
changes nothing and answers 404. -/
theorem delete_result_spec (db : DbState) (rid : ℤ) :
    ((∃ r ∈ db.clusterResults, r.rowId = rid) →
      (delete_result db rid "cluster").1 = .ok200 ∧
      (∀ r ∈ (delete_result db rid "cluster").2.clusterResults,
        r.rowId ≠ rid) ∧
      ((delete_result db rid "cluster").2.taskImages.filter
          (fun r => r.taskDbId = rid && r.taskType = "cluster")).length = 0 ∧
      (delete_result db rid "cluster").2.detectionResults =
        db.detectionResults) ∧
    ((∀ r ∈ db.clusterResults, r.rowId ≠ rid) →
      delete_result db rid "cluster" = (.notFound404, db)) ∧
    ((∃ r ∈ db.detectionResults, r.rowId = rid) →
      (delete_result db rid "detect").1 = .ok200 ∧
      (∀ r ∈ (delete_result db rid "detect").2.detectionResults,
        r.rowId ≠ rid) ∧
      ((delete_result db rid "detect").2.taskImages.filter
          (fun r => r.taskDbId = rid && r.taskType = "detect")).length = 0 ∧
      (delete_result db rid "detect").2.clusterResults =
        db.clusterResults) ∧
    ((∀ r ∈ db.detectionResults, r.rowId ≠ rid) →
      delete_result db rid "detect" = (.notFound404, db)) := by
  refine ⟨?_, ?_, ?_, ?_⟩
  · rintro ⟨r, hr, hrid⟩
    have hsucc :
        (db.clusterResults.filter (fun s => !decide (s.rowId = rid))).length <
          db.clusterResults.length :=
      List.length_filter_lt_length_iff_exists.mpr ⟨r, hr, by simp [hrid]⟩
    have hres : delete_result db rid "cluster" =
        (.ok200,
          { db with
            clusterResults :=
              db.clusterResults.filter (fun s => !decide (s.rowId = rid))
            taskImages := db.taskImages.filter
              (fun s => !decide (s.taskDbId = rid) ||
                !decide (s.taskType = "cluster")) }) := by
      simp [delete_result, delete_cluster_result, hsucc]
    rw [hres]
    refine ⟨rfl, ?_, ?_, rfl⟩
    · intro s hs
      simpa using List.of_mem_filter hs
    · rw [List.filter_eq_nil_iff.mpr]
      · rfl
      · intro s hs
        have hq := List.of_mem_filter hs
        simp only [Bool.or_eq_true, Bool.not_eq_true',
          decide_eq_false_iff_not] at hq
        simp only [Bool.and_eq_true, decide_eq_true_eq, not_and]
        tauto
  · intro h
    have hall : db.clusterResults.filter (fun s => !decide (s.rowId = rid)) =
        db.clusterResults :=
      List.filter_eq_self.mpr (by
        intro s hs
        simpa using h s hs)
    simp [delete_result, delete_cluster_result, hall]
  · rintro ⟨r, hr, hrid⟩
    have hsucc :
        (db.detectionResults.filter
            (fun s => !decide (s.rowId = rid))).length <
          db.detectionResults.length :=
      List.length_filter_lt_length_iff_exists.mpr ⟨r, hr, by simp [hrid]⟩
    have hres : delete_result db rid "detect" =
        (.ok200,
          { db with
            detectionResults :=
              db.detectionResults.filter (fun s => !decide (s.rowId = rid))
            taskImages := db.taskImages.filter
              (fun s => !decide (s.taskDbId = rid) ||
                !decide (s.taskType = "detect")) }) := by
      simp [delete_result, delete_detection_result, hsucc]
    rw [hres]
    refine ⟨rfl, ?_, ?_, rfl⟩
    · intro s hs
      simpa using List.of_mem_filter hs
    · rw [List.filter_eq_nil_iff.mpr]
      · rfl
      · intro s hs
        have hq := List.of_mem_filter hs
        simp only [Bool.or_eq_true, Bool.not_eq_true',
          decide_eq_false_iff_not] at hq
        simp only [Bool.and_eq_true, decide_eq_true_eq, not_and]
        tauto
  · intro h
    have hall :
        db.detectionResults.filter (fun s => !decide (s.rowId = rid)) =
          db.detectionResults :=
      List.filter_eq_self.mpr (by
        intro s hs
        simpa using h s hs)
    simp [delete_result, delete_detection_result, hall]

/-- Witness database for C5: one cluster summary (id 1), one detection
summary (id 5), with image rows of both task types. -/
def c5Db : DbState :=
  { clusterResults := [⟨1, "payload"⟩]
    detectionResults := [⟨5, "detpayload"⟩]
    taskImages := [⟨10, 1, "cluster", [], some 0⟩,
      ⟨11, 1, "detect", [], none⟩, ⟨12, 5, "detect", [], none⟩] }

/-- Witness for C5: deleting cluster id 1 and detection id 5 each succeed
and leave no image rows of the matching type for that id; deleting the
absent ids 2 (cluster) and 6 (detect) are reported-as-404 no-ops. -/
theorem delete_result_spec_witness :
    (delete_result c5Db 1 "cluster").1 = .ok200 ∧
    ((delete_result c5Db 1 "cluster").2.taskImages.filter
        (fun r => r.taskDbId = 1 && r.taskType = "cluster")).length = 0 ∧
    delete_result c5Db 2 "cluster" = (.notFound404, c5Db) ∧
    (delete_result c5Db 5 "detect").1 = .ok200 ∧
    ((delete_result c5Db 5 "detect").2.taskImages.filter
        (fun r => r.taskDbId = 5 && r.taskType = "detect")).length = 0 ∧
    delete_result c5Db 6 "detect" = (.notFound404, c5Db) :=
  ⟨((delete_result_spec c5Db 1).1 ⟨⟨1, "payload"⟩, by decide, rfl⟩).1,
   ((delete_result_spec c5Db 1).1 ⟨⟨1, "payload"⟩, by decide, rfl⟩).2.2.1,
   (delete_result_spec c5Db 2).2.1 (by decide),
   ((delete_result_spec c5Db 5).2.2.1
     ⟨⟨5, "detpayload"⟩, by decide, rfl⟩).1,
   ((delete_result_spec c5Db 5).2.2.1
     ⟨⟨5, "detpayload"⟩, by decide, rfl⟩).2.2.1,
   (delete_result_spec c5Db 6).2.2.2 (by decide)⟩

end VisionSorter

namespace VisionSorter

/-- Placeholder row used only as the `getD` default in the pagination
statement. -/
def dummyRow : TaskImageRow := ⟨0, 0, "", [], none⟩

/-- **C7** — For a task whose filtered row set has `T` rows, page `p` with
page size `s` reports `total = T` and returns exactly the rows at
positions `(p-1)·s, …` (up to `s` of them, so `min s (T - (p-1)·s)`
items); and the `-1` cluster-id sentinel selects exactly the rows whose
assigned cluster id is absent. -/
theorem get_task_images_spec (table : List TaskImageRow) (tid : ℤ)
    (tt : String) (page page_size : ℕ) (_hpage : 1 ≤ page) :
    (get_task_images table tid tt page page_size [] none).total =
        (table.filter (taskImageMatches tid tt [] none)).length ∧
    (get_task_images table tid tt page page_size [] none).items.length =
        min page_size
          ((table.filter (taskImageMatches tid tt [] none)).length -
            (page - 1) * page_size) ∧
    (∀ j, j < page_size →
      (get_task_images table tid tt page page_size [] none).items.getD j
          dummyRow =
        (table.filter (taskImageMatches tid tt [] none)).getD
          ((page - 1) * page_size + j) dummyRow) ∧
    (∀ r ∈ (get_task_images table tid tt page page_size []
        (some (-1))).items, r.clusterId = none) ∧
    (∀ r : TaskImageRow, taskImageMatches tid tt [] (some (-1)) r =
      (taskImageMatches tid tt [] none r && r.clusterId.isNone)) := by
  refine ⟨rfl, ?_, ?_, ?_, ?_⟩
  · simp [get_task_images, Nat.min_comm]
  · intro j hj
    simp only [get_task_images, List.getD_eq_getElem?_getD]
    rw [List.getElem?_take, if_pos hj, List.getElem?_drop]
  · intro r hr
    have hr' : r ∈ ((table.filter (taskImageMatches tid tt []
        (some (-1)))).drop ((page - 1) * page_size)).take page_size := by
      simpa [get_task_images] using hr
    have hmem : r ∈ table.filter (taskImageMatches tid tt [] (some (-1))) :=
      List.drop_subset _ _ (List.take_subset _ _ hr')
    have hp := List.of_mem_filter hmem
    simp only [taskImageMatches, Bool.and_eq_true, decide_eq_true_eq] at hp
    exact hp.2
  · intro r
    cases hc : r.clusterId with
    | none => simp [taskImageMatches, hc]
    | some c => simp [taskImageMatches, hc]

/-- Witness table for C7: 45 rows, all owned by task 7 of type
`"cluster"`, each with an assigned cluster. -/
def c7Table : List TaskImageRow :=
  (List.range 45).map (fun i => ⟨(i : ℤ), 7, "cluster", [], some 0⟩)

/-- Witness for C7: 45 stored rows with page size 20 give 20 items on
page 2 and 5 items on page 3, with total 45. -/
theorem get_task_images_spec_witness :
    (get_task_images c7Table 7 "cluster" 2 20 [] none).items.length = 20 ∧
    (get_task_images c7Table 7 "cluster" 3 20 [] none).items.length = 5 ∧
    (get_task_images c7Table 7 "cluster" 2 20 [] none).total = 45 := by
  refine ⟨?_, ?_, ?_⟩
  · rw [(get_task_images_spec c7Table 7 "cluster" 2 20 (by norm_num)).2.1]
    rfl
  · rw [(get_task_images_spec c7Table 7 "cluster" 3 20 (by norm_num)).2.1]
    rfl
  · rw [(get_task_images_spec c7Table 7 "cluster" 2 20 (by norm_num)).1]
    rfl

end VisionSorter

namespace VisionSorter

/-- Flattening singleton lists recovers the list. -/
theorem flatten_map_singleton (l : List ℕ) :
    (l.map (fun i => [i])).flatten = l := by
  induction l with
  | nil => rfl
  | cons a t ih => simp [ih]

/-- **C3** — Every successful clustering run is a hard partition: the
member index lists of the returned clusters concatenate, without
duplicates, to exactly the full input index set `{0, …, N-1}`.  For the
general branch this relies on the clustering library's contract that
`labels` has one entry per sample, each in `{0, …, K-1}`. -/
theorem clustering_hard_partition (dE : List ℚ → List ℚ → ℚ)
    (npStd : List ℚ → ℚ) (lab_vectors : List (List ℚ))
    (image_paths : List String) (n_clusters : ℕ) (labels : List ℕ)
    (cs : List (ℕ × ClusterInfo))
    (hlen : labels.length = lab_vectors.length)
    (hran : ∀ l ∈ labels, l < n_clusters)
    (h : cluster_images_by_color_de2000 dE npStd lab_vectors image_paths
        n_clusters labels = .ok cs) :
    (memberIndices cs).Nodup ∧
      ∀ i, i ∈ memberIndices cs ↔ i < lab_vectors.length := by
  have hnlt : ¬(lab_vectors.length < n_clusters) := by
    intro hlt
    simp [cluster_images_by_color_de2000, hlt] at h
  rcases eq_or_lt_of_le (not_lt.mp hnlt) with heq | hlt
  · -- degenerate branch: N == K
    have hcs : cs = (List.range lab_vectors.length).map (fun i =>
        (i, { images := [image_paths.getD i ""]
              indices := [i]
              lab_mean := lab_vectors.getD i []
              lab_std := [0, 0, 0]
              de2000_mean := 0
              de2000_max := 0
              de2000_std := 0
              de2000_intra_mean := none
              de2000_intra_max := none
              count := 1 : ClusterInfo})) := by
      simp [cluster_images_by_color_de2000, hnlt, heq] at h
      simpa [List.getD_eq_getElem?_getD] using h.symm
    have hmi : memberIndices cs = List.range lab_vectors.length := by
      rw [hcs]
      simp only [memberIndices, List.map_map, Function.comp_def]
      exact flatten_map_singleton _
    rw [hmi]
    exact ⟨List.nodup_range _, fun i => List.mem_range⟩
  · -- general branch: K < N
    have hne : ¬(lab_vectors.length = n_clusters) := ne_of_gt hlt
    have hcs : cs = (List.range n_clusters).map (fun cluster_id =>
        (cluster_id,
          clusterStats dE npStd lab_vectors image_paths
            ((List.range lab_vectors.length).filter
              (fun i => labels.getD i 0 = cluster_id)))) := by
      simp [cluster_images_by_color_de2000, hnlt, hne] at h
      simpa [List.getD_eq_getElem?_getD] using h.symm
    have hmi : memberIndices cs = ((List.range n_clusters).map
        (fun cluster_id => (List.range lab_vectors.length).filter
          (fun i => labels.getD i 0 = cluster_id))).flatten := by
      rw [hcs]
      simp [memberIndices, List.map_map, clusterStats, Function.comp_def]
    rw [hmi]
    constructor
    · rw [List.nodup_flatten]
      constructor
      · intro l hl
        obtain ⟨c, _, rfl⟩ := List.mem_map.mp hl
        exact (List.nodup_range _).filter _
      · rw [List.pairwise_map]
        refine (List.pairwise_lt_range n_clusters).imp ?_
        intro a b hab i hia hib
        have ha := List.of_mem_filter hia
        have hb := List.of_mem_filter hib
        simp only [decide_eq_true_eq] at ha hb
        exact absurd (ha.symm.trans hb) (ne_of_lt hab)
    · intro i
      simp only [List.mem_flatten, List.mem_map]
      constructor
      · rintro ⟨l, ⟨c, _, rfl⟩, hil⟩
        exact List.mem_range.mp (List.mem_filter.mp hil).1
      · intro hi
        have hilab : i < labels.length := hlen ▸ hi
        refine ⟨_, ⟨labels.getD i 0, ?_, rfl⟩, ?_⟩
        · rw [List.mem_range]
          rw [List.getD_eq_getElem _ _ hilab]
          exact hran _ (List.getElem_mem hilab)
        · rw [List.mem_filter]
          exact ⟨List.mem_range.mpr hi, by simp⟩

/-- Witness inputs for C3: six samples clustered into three clusters by
concrete labels. -/
def c3Vectors : List (List ℚ) :=
  [[1, 0, 0], [2, 0, 0], [50, 10, 10], [51, 10, 10], [90, -5, 0], [91, -5, 0]]

/-- Concrete label vector for the C3 witness (one label per sample, each
below 3). -/
def c3Labels : List ℕ := [0, 0, 1, 1, 2, 2]

/-- The concrete cluster list the C3 witness run returns. -/
def c3Cs : List (ℕ × ClusterInfo) :=
  (cluster_images_by_color_de2000 (fun _ _ => 0) (fun _ => 0) c3Vectors
    ["a", "b", "c", "d", "e", "f"] 3 c3Labels).toOption.getD []

/-- Witness for C3: clustering 6 samples into 3 clusters with the labels
above partitions `{0, …, 5}` without duplicates. -/
theorem clustering_hard_partition_witness :
    (memberIndices c3Cs).Nodup ∧ (5 ∈ memberIndices c3Cs ↔ 5 < 6) :=
  have h := clustering_hard_partition (fun _ _ => 0) (fun _ => 0) c3Vectors
    ["a", "b", "c", "d", "e", "f"] 3 c3Labels c3Cs (by decide) (by decide) rfl
  ⟨h.1, h.2 5⟩

end VisionSorter

namespace VisionSorter

/-- **C4** — With `N == K` the engine returns `N` clusters, numbered
`0, …, N-1`, each a singleton whose member is the sample of the same
index, whose centre is that sample's own LAB vector, and whose reported
intra-cluster statistics (`lab_std`, `de2000_mean/max/std`) are exactly
`0.0`; the `de2000_intra_mean/max` keys are not written by this branch. -/
theorem clustering_degenerate_singletons (dE : List ℚ → List ℚ → ℚ)
    (npStd : List ℚ → ℚ) (lab_vectors : List (List ℚ))
    (image_paths : List String) (n_clusters : ℕ) (labels : List ℕ)
    (cs : List (ℕ × ClusterInfo))
    (hK : n_clusters = lab_vectors.length)
    (h : cluster_images_by_color_de2000 dE npStd lab_vectors image_paths
        n_clusters labels = .ok cs) :
    cs.length = lab_vectors.length ∧
    cs.map Prod.fst = List.range lab_vectors.length ∧
    ∀ p ∈ cs,
      p.2.count = 1 ∧
      p.2.indices = [p.1] ∧
      p.2.lab_mean = lab_vectors.getD p.1 [] ∧
      p.2.images = [image_paths.getD p.1 ""] ∧
      p.2.lab_std = [0, 0, 0] ∧
      p.2.de2000_mean = 0 ∧ p.2.de2000_max = 0 ∧ p.2.de2000_std = 0 ∧
      p.2.de2000_intra_mean = none ∧ p.2.de2000_intra_max = none := by
  have hnlt : ¬(lab_vectors.length < n_clusters) := by
    rw [hK]
    exact lt_irrefl _
  have hcs : cs = (List.range lab_vectors.length).map (fun i =>
      (i, { images := [image_paths.getD i ""]
            indices := [i]
            lab_mean := lab_vectors.getD i []
            lab_std := [0, 0, 0]
            de2000_mean := 0
            de2000_max := 0
            de2000_std := 0
            de2000_intra_mean := none
            de2000_intra_max := none
            count := 1 : ClusterInfo})) := by
    simp [cluster_images_by_color_de2000, hnlt, hK] at h
    simpa [List.getD_eq_getElem?_getD] using h.symm
  subst hcs
  refine ⟨by simp, by simp [Function.comp_def], ?_⟩
  intro p hp
  obtain ⟨i, _, rfl⟩ := List.mem_map.mp hp
  exact ⟨rfl, rfl, rfl, rfl, rfl, rfl, rfl, rfl, rfl, rfl⟩

/-- The concrete cluster list the C4 witness run returns. -/
def c4Cs : List (ℕ × ClusterInfo) :=
  (cluster_images_by_color_de2000 (fun _ _ => 0) (fun _ => 0)
    [[1, 2, 3], [4, 5, 6]] ["a", "b"] 2 []).toOption.getD []

/-- The first singleton cluster of the C4 witness run. -/
def c4First : ℕ × ClusterInfo :=
  (0, (⟨["a"], [0], [1, 2, 3], [0, 0, 0], 0, 0, 0, none, none, 1⟩ : ClusterInfo))

/-- Witness for C4: clustering 2 samples into 2 clusters yields 2
singletons; the first one carries its own LAB vector as centre and all
zero statistics. -/
theorem clustering_degenerate_singletons_witness :
    c4Cs.length = 2 ∧
    c4Cs.map Prod.fst = List.range 2 ∧
    c4First ∈ c4Cs ∧
    c4First.2.count = 1 ∧ c4First.2.lab_mean = [1, 2, 3] ∧
      c4First.2.de2000_max = 0 ∧ c4First.2.de2000_intra_max = none := by
  have h := clustering_degenerate_singletons (fun _ _ => 0) (fun _ => 0)
    [[1, 2, 3], [4, 5, 6]] ["a", "b"] 2 [] c4Cs rfl rfl
  have hmem : c4First ∈ c4Cs := by decide
  have hp := h.2.2 c4First hmem
  exact ⟨h.1, h.2.1, hmem, hp.1, hp.2.2.1, hp.2.2.2.2.2.2.1,
    hp.2.2.2.2.2.2.2.2.2⟩

end VisionSorter

namespace VisionSorter

/-- Whether the poll at iteration `idx` observes a cancel signal. -/
def cancelAt (poll : ℕ → Option RecvData) (idx : ℕ) : Bool :=
  match poll idx with
  | some d => isCancelSignal d
  | none => false

/-- Structure of a cancelled run of the per-image loop: with the first
cancel observed at iteration `idx + m` (and `m` images still pending
before it), the loop emits the `m` progress messages, one `cancelled`
message with `processed = idx + m`, and then the `completed` message that
the code below the loop always sends. -/
theorem ws_detect_loop_cancel_shape {α : Type} [Inhabited α]
    (poll : ℕ → Option RecvData) (proc : α → DetectOutcome) (total : ℕ) :
    ∀ (m : ℕ) (l : List α) (idx cls : ℕ),
      m < l.length →
      (∀ j, j < m → cancelAt poll (idx + j) = false) →
      cancelAt poll (idx + m) = true →
      ws_detect_loop poll proc total l idx cls =
        ((List.range m).map (fun j =>
          WsMsg.progress (idx + j) total (proc (l.getD j default)))) ++
        [WsMsg.cancelled (idx + m) total,
         WsMsg.completed total
           (cls + (l.take m).countP (fun a => (proc a).matched.isSome))] := by
  intro m
  induction m with
  | zero =>
    intro l idx cls hm _ hc
    match l, hm with
    | a :: rest, _ =>
      rw [ws_detect_loop]
      simp only [Nat.add_zero, cancelAt] at hc
      simp [hc]
  | succ n ih =>
    intro l idx cls hm hbefore hc
    match l, hm with
    | a :: rest, hm =>
      have h0 : (match poll idx with
          | some d => isCancelSignal d
          | none => false) = false := by
        have := hbefore 0 (Nat.succ_pos n)
        simpa [cancelAt] using this
      have hrec := ih rest (idx + 1)
        (if (proc a).matched ≠ none then cls + 1 else cls)
        (Nat.lt_of_succ_lt_succ hm)
        (fun j hj => by
          have := hbefore (j + 1) (Nat.succ_lt_succ hj)
          rwa [show idx + (j + 1) = idx + 1 + j by omega] at this)
        (by rwa [show idx + 1 + n = idx + (n + 1) by omega])
      rw [ws_detect_loop]
      simp only [h0, Bool.false_eq_true, if_false]
      rw [hrec, List.range_succ_eq_map]
      simp only [List.map_cons, List.map_map, List.getD_cons_zero,
        List.take_succ_cons, List.countP_cons, Function.comp_def,
        List.getD_cons_succ, Nat.add_zero, List.cons_append]
      congr 1
      congr 1
      · apply List.map_congr_left
        intro j _
        rw [show idx + 1 + j = idx + (j + 1) by omega]
      · congr 2
        · omega
        · rcases h : (proc a).matched with _ | c <;>
            (simp [h, Option.isSome]; try omega)

end VisionSorter

namespace VisionSorter

/-- Poll schedule for the C2 run: the cancel signal is first observed by
the poll of iteration 4 (after images 0–3 were processed). -/
def c2Poll : ℕ → Option RecvData := fun i =>
  if i = 4 then some ⟨"websocket.receive", "cancel", none⟩ else none

/-- Per-image outcome for the C2 run: nothing matches. -/
def c2Proc : ℕ → DetectOutcome := fun _ => ⟨none, none, .unclassified⟩

/-- Counterexample to **C2** as stated: a streamed detection over 10
images cancelled at iteration 4 emits the 4 progress messages and the
cancelled message with `processed = 4`, but then — the `completed` send
sits below the loop that `break` exits — a `completed` message follows
the cancelled message, where the claim says none is ever emitted. -/
theorem websocket_completed_follows_cancelled :
    websocket_detect_images c2Poll c2Proc (List.range 10) =
      [WsMsg.start 10,
       WsMsg.progress 0 10 ⟨none, none, .unclassified⟩,
       WsMsg.progress 1 10 ⟨none, none, .unclassified⟩,
       WsMsg.progress 2 10 ⟨none, none, .unclassified⟩,
       WsMsg.progress 3 10 ⟨none, none, .unclassified⟩,
       WsMsg.cancelled 4 10,
       WsMsg.completed 10 0] ∧
    WsMsg.completed 10 0 ∈ websocket_detect_images c2Poll c2Proc
      (List.range 10) := by
  constructor
  · decide
  · decide

/-- **C2** (amended) — A streamed detection over `N` images whose first
cancel signal is observed at the poll of iteration `k+1` (so after image
index `k` was processed) emits exactly the `k+1` progress messages for
indices `0…k`, then exactly one cancelled message with
`processed = k+1` and `total = N`, and then one final `completed`
message (the send below the loop runs after the `break` too). -/
theorem websocket_cancel_run_messages {α : Type} [Inhabited α]
    (poll : ℕ → Option RecvData) (proc : α → DetectOutcome)
    (images : List α) (k : ℕ)
    (hk : k + 1 < images.length)
    (hbefore : ∀ j, j ≤ k → cancelAt poll j = false)
    (hcancel : cancelAt poll (k + 1) = true) :
    websocket_detect_images poll proc images =
      WsMsg.start images.length ::
      ((List.range (k + 1)).map (fun j =>
        WsMsg.progress j images.length (proc (images.getD j default)))) ++
      [WsMsg.cancelled (k + 1) images.length,
       WsMsg.completed images.length
         ((images.take (k + 1)).countP
           (fun a => (proc a).matched.isSome))] := by
  rw [websocket_detect_images,
    ws_detect_loop_cancel_shape poll proc images.length (k + 1) images 0 0 hk
      (fun j hj => by simpa using hbefore j (Nat.lt_succ_iff.mp hj))
      (by simpa using hcancel)]
  simp

/-- Witness for C2 (amended): 10 images, cancel observed at iteration 4
(`k = 3`): the full message list — including the trailing completed
message — instantiated. -/
theorem websocket_cancel_run_messages_witness :
    websocket_detect_images c2Poll c2Proc (List.range 10) =
      WsMsg.start 10 ::
      ((List.range 4).map (fun j =>
        WsMsg.progress j 10 (c2Proc ((List.range 10).getD j default)))) ++
      [WsMsg.cancelled 4 10,
       WsMsg.completed 10 (((List.range 10).take 4).countP
         (fun a => (c2Proc a).matched.isSome))] :=
  websocket_cancel_run_messages c2Poll c2Proc (List.range 10) 3
    (by decide)
    (fun j hj => by
      have hj4 : j = 0 ∨ j = 1 ∨ j = 2 ∨ j = 3 := by omega
      rcases hj4 with rfl | rfl | rfl | rfl <;> decide)
    (by decide)

/-- **C6** — A cancel signal sent either as the plain text `"cancel"` or
as the tagged JSON object (`type` entry `"cancel"`), observed by the poll
of iteration `idx`, stops the stream before image `idx` is processed: no
progress message with index ≥ `idx` appears and a cancelled message does. -/
theorem websocket_cancel_signal_both_forms {α : Type} [Inhabited α]
    (poll : ℕ → Option RecvData) (proc : α → DetectOutcome)
    (images : List α) (idx : ℕ) (d : RecvData)
    (hidx : idx < images.length)
    (hbefore : ∀ j, j < idx → cancelAt poll j = false)
    (hpoll : poll idx = some d)
    (htype : d.rtype = "websocket.receive")
    (hform : d.text = "cancel" ∨
      ∃ j, d.json = some j ∧ j.entries ≠ [] ∧
        j.entries.lookup "type" = some "cancel") :
    (∀ m ∈ websocket_detect_images poll proc images,
      ∀ i t r, m = WsMsg.progress i t r → i < idx) ∧
    WsMsg.cancelled idx images.length ∈
      websocket_detect_images poll proc images := by
  have hsig : isCancelSignal d = true := by
    rcases hform with h | ⟨j, hj, hne, hl⟩
    · simp [isCancelSignal, htype, h]
    · simp [isCancelSignal, htype, hj, hne, hl]
  have hcan : cancelAt poll idx = true := by simp [cancelAt, hpoll, hsig]
  have hshape := ws_detect_loop_cancel_shape poll proc images.length idx
    images 0 0 hidx (fun j hj => by simpa using hbefore j hj)
    (by simpa using hcan)
  rw [websocket_detect_images, hshape]
  constructor
  · intro m hm i t r heq
    subst heq
    simp only [List.mem_cons, List.mem_append, List.mem_map,
      List.mem_range, List.not_mem_nil, or_false] at hm
    rcases hm with hm | ⟨jj, hjj, hjeq⟩ | hm | hm
    · exact WsMsg.noConfusion hm
    · injection hjeq with h1 h2 h3
      omega
    · exact WsMsg.noConfusion hm
    · exact WsMsg.noConfusion hm
  · simp

end VisionSorter

namespace VisionSorter

/-- Poll schedule delivering the plain-text cancel at iteration 2. -/
def c6PollText : ℕ → Option RecvData := fun i =>
  if i = 2 then some ⟨"websocket.receive", "cancel", none⟩ else none

/-- Poll schedule delivering the tagged-JSON cancel at iteration 2. -/
def c6PollJson : ℕ → Option RecvData := fun i =>
  if i = 2 then some ⟨"websocket.receive", "", some ⟨[("type", "cancel")]⟩⟩
  else none

/-- Per-image outcome for the C6 runs. -/
def c6Proc : ℕ → DetectOutcome := fun _ => ⟨none, none, .unclassified⟩

/-- Witness for C6: over 5 images, both the plain-text form and the
tagged-JSON form of the cancel signal, observed at iteration 2, produce a
cancelled message with `processed = 2`. -/
theorem websocket_cancel_signal_both_forms_witness :
    WsMsg.cancelled 2 5 ∈ websocket_detect_images c6PollText c6Proc
      (List.range 5) ∧
    WsMsg.cancelled 2 5 ∈ websocket_detect_images c6PollJson c6Proc
      (List.range 5) := by
  constructor
  · have h := websocket_cancel_signal_both_forms c6PollText c6Proc
      (List.range 5) 2 ⟨"websocket.receive", "cancel", none⟩
      (by decide)
      (fun j hj => by
        have hj2 : j = 0 ∨ j = 1 := by omega
        rcases hj2 with rfl | rfl <;> decide)
      rfl rfl (Or.inl rfl)
    simpa using h.2
  · have h := websocket_cancel_signal_both_forms c6PollJson c6Proc
      (List.range 5) 2
      ⟨"websocket.receive", "", some ⟨[("type", "cancel")]⟩⟩
      (by decide)
      (fun j hj => by
        have hj2 : j = 0 ∨ j = 1 := by omega
        rcases hj2 with rfl | rfl <;> decide)
      rfl rfl (Or.inr ⟨⟨[("type", "cancel")]⟩, rfl, by decide, rfl⟩)
    simpa using h.2

end VisionSorter

namespace VisionSorter

/-- Counterexample to **C9** as stated: with the default 200×200 canvas
(`r = 100`, shadow intensity 0.3), the background pixel `(183, 170)` lies
inside the SPEC's claimed ellipse (semi-axes `r`, `0.5·r` about the
offset centre), where the claimed exponential falloff is strictly
positive — yet the source stamps exactly `0` there, because its ellipse
uses `shadow_radius = radius * 0.6`, i.e. semi-axes `0.6·r` and `0.3·r`. -/
theorem shadow_claimed_geometry_counterexample :
    shadow_on_bg 200 200 (3 / 10) 183 170 = 0 ∧
    specShadowDistSq 200 200 183 170 ≤ 1 ∧
    0 < specShadowValue 200 200 (3 / 10) 183 170 := by
  refine ⟨?_, ?_, ?_⟩
  · rw [shadow_on_bg, if_neg (by decide), shadow_ellipse_mask,
      if_neg (by norm_num [shadowDistSq, beadRadius])]
  · norm_num [specShadowDistSq, beadRadius]
  · rw [specShadowValue, if_pos (by norm_num [specShadowDistSq, beadRadius])]
    positivity

/-- **C9** (amended) — The drop shadow stamped on the background is
positive exactly on the background pixels of the ellipse with semi-axes
`0.6·r` (horizontal) and `0.3·r` (vertical) centred at offset `(3, 0.7·r)`
from the bead centre (the condition `shadowDistSq ≤ 1`), and inside it the
stamped value is the exponential falloff `exp(-3·d)` scaled by
`shadow_intensity × 0.3`. -/
theorem shadow_on_bg_support (size diameter : ℕ) (si : ℝ) (x y : ℕ)
    (hsi : 0 < si) :
    (0 < shadow_on_bg size diameter si x y ↔
      (¬inBeadCircle size diameter x y ∧
        shadowDistSq size diameter x y ≤ 1)) ∧
    (shadowDistSq size diameter x y ≤ 1 →
      shadow_ellipse_mask size diameter si x y =
        Real.exp (-Real.sqrt ((shadowDistSq size diameter x y : ℚ) : ℝ) * 3) *
          si * (3 / 10)) := by
  constructor
  · constructor
    · intro hpos
      by_cases hb : inBeadCircle size diameter x y
      · rw [shadow_on_bg, if_pos hb] at hpos
        exact absurd hpos (lt_irrefl 0)
      · refine ⟨hb, ?_⟩
        by_cases hd : shadowDistSq size diameter x y ≤ 1
        · exact hd
        · rw [shadow_on_bg, if_neg hb, shadow_ellipse_mask,
            if_neg hd] at hpos
          exact absurd hpos (lt_irrefl 0)
    · rintro ⟨hb, hd⟩
      rw [shadow_on_bg, if_neg hb, shadow_ellipse_mask, if_pos hd]
      positivity
  · intro hd
    rw [shadow_ellipse_mask, if_pos hd]

/-- Witness for C9 (amended): the background pixel `(116, 199)` of the
default canvas lies inside the source's `0.6·r`/`0.3·r` ellipse and
outside the bead circle, so it receives a strictly positive shadow. -/
theorem shadow_on_bg_support_witness :
    0 < shadow_on_bg 200 200 (3 / 10) 116 199 :=
  ((shadow_on_bg_support 200 200 (3 / 10) 116 199 (by norm_num)).1).mpr
    ⟨by decide, by norm_num [shadowDistSq, beadRadius]⟩

end VisionSorter

namespace VisionSorter

/-- The cluster the detection loop keeps: `e` is a well-formed entry of
the dictionary (split `l₁ ++ e :: l₂`) whose distance is strictly below
every earlier well-formed entry's and at most every later one's — the
first entry attaining the minimum, as the strict `<` update realises. -/
def NearestFirst (dE : List ℚ → List ℚ → ℚ) (lab : List ℚ)
    (clusters : List ClusterEntry) (c : ℤ) (d : ℚ) : Prop :=
  ∃ l₁ e l₂, clusters = l₁ ++ e :: l₂ ∧ e.wf = true ∧ e.cid = c ∧
    d = dE lab e.labMean ∧
    (∀ e' ∈ l₁, e'.wf = true → d < dE lab e'.labMean) ∧
    (∀ e' ∈ l₂, e'.wf = true → d ≤ dE lab e'.labMean)

theorem nearestFirst_cons_not_wf (dE : List ℚ → List ℚ → ℚ) (lab : List ℚ)
    (e₀ : ClusterEntry) (rest : List ClusterEntry) (c : ℤ) (d : ℚ)
    (he : e₀.wf = false) :
    NearestFirst dE lab (e₀ :: rest) c d ↔ NearestFirst dE lab rest c d := by
  constructor
  · rintro ⟨l₁, e, l₂, heq, hwf, hcid, hd, h₁, h₂⟩
    rcases l₁ with _ | ⟨a, l₁'⟩
    · obtain ⟨rfl, _⟩ : e₀ = e ∧ rest = l₂ := by
        simpa using heq
      rw [hwf] at he
      exact absurd he (by simp)
    · obtain ⟨rfl, hrest⟩ : a = e₀ ∧ rest = l₁' ++ e :: l₂ := by
        have h1 : e₀ = a := by
          have := congrArg (fun l => l.headD e₀) heq
          simpa using this
        have h2 : rest = l₁' ++ e :: l₂ := by
          have := congrArg List.tail heq
          simpa using this
        exact ⟨h1.symm, h2⟩
      exact ⟨l₁', e, l₂, hrest, hwf, hcid, hd,
        fun e' he' hw => h₁ e' (List.mem_cons_of_mem _ he') hw, h₂⟩
  · rintro ⟨l₁, e, l₂, heq, hwf, hcid, hd, h₁, h₂⟩
    refine ⟨e₀ :: l₁, e, l₂, by rw [heq, List.cons_append], hwf, hcid, hd,
      ?_, h₂⟩
    intro e' he' hw
    rcases List.mem_cons.mp he' with rfl | hmem
    · rw [hw] at he
      exact absurd he (by simp)
    · exact h₁ e' hmem hw

theorem nearestFirst_cons_wf (dE : List ℚ → List ℚ → ℚ) (lab : List ℚ)
    (e₀ : ClusterEntry) (rest : List ClusterEntry) (c : ℤ) (d : ℚ)
    (he : e₀.wf = true) :
    NearestFirst dE lab (e₀ :: rest) c d ↔
      ((c = e₀.cid ∧ d = dE lab e₀.labMean ∧
          ∀ e' ∈ rest, e'.wf = true → d ≤ dE lab e'.labMean) ∨
        (NearestFirst dE lab rest c d ∧ d < dE lab e₀.labMean)) := by
  constructor
  · rintro ⟨l₁, e, l₂, heq, hwf, hcid, hd, h₁, h₂⟩
    rcases l₁ with _ | ⟨a, l₁'⟩
    · obtain ⟨rfl, rfl⟩ : e₀ = e ∧ rest = l₂ := by
        simpa using heq
      exact Or.inl ⟨hcid.symm, hd, h₂⟩
    · obtain ⟨rfl, hrest⟩ : a = e₀ ∧ rest = l₁' ++ e :: l₂ := by
        have h1 : a = e₀ := by
          have := congrArg (fun l => l.headD e₀) heq
          simpa using this.symm
        refine ⟨h1, ?_⟩
        have := congrArg List.tail heq
        simpa using this
      refine Or.inr ⟨⟨l₁', e, l₂, hrest, hwf, hcid, hd,
        fun e' he' hw => h₁ e' (List.mem_cons_of_mem _ he') hw, h₂⟩, ?_⟩
      exact h₁ a (List.mem_cons_self _ _) he
  · rintro (⟨hcid, hd, h₂⟩ | ⟨⟨l₁, e, l₂, heq, hwf, hcid, hd, h₁, h₂⟩, hlt⟩)
    · exact ⟨[], e₀, rest, rfl, he, hcid.symm, hd, by simp, h₂⟩
    · refine ⟨e₀ :: l₁, e, l₂, by rw [heq, List.cons_append], hwf, hcid, hd,
        ?_, h₂⟩
      intro e' he' hw
      rcases List.mem_cons.mp he' with rfl | hmem
      · exact hlt
      · exact h₁ e' hmem hw

end VisionSorter

namespace VisionSorter

/-- What the strict-`<` update loop computes from a non-empty accumulator:
either no well-formed entry beats the accumulator (which then survives),
or the first-minimum entry of the list wins and also beats the
accumulator. -/
theorem findBestAux_some_iff (dE : List ℚ → List ℚ → ℚ) (lab : List ℚ) :
    ∀ (l : List ClusterEntry) (b : ℤ × ℚ) (c : ℤ) (d : ℚ),
      findBestAux dE lab (some b) l = some (c, d) ↔
        ((c = b.1 ∧ d = b.2 ∧
            ∀ e ∈ l, e.wf = true → b.2 ≤ dE lab e.labMean) ∨
          (NearestFirst dE lab l c d ∧ d < b.2)) := by
  intro l
  induction l with
  | nil =>
    intro b c d
    constructor
    · intro h
      obtain ⟨h1, h2⟩ : c = b.1 ∧ d = b.2 := by
        have := h
        rw [findBestAux] at this
        obtain ⟨rfl⟩ : b = (c, d) := by simpa using this
        exact ⟨rfl, rfl⟩
      exact Or.inl ⟨h1, h2, by simp⟩
    · rintro (⟨rfl, rfl, _⟩ | ⟨⟨l₁, e, l₂, heq, _⟩, _⟩)
      · rw [findBestAux]
      · exact absurd heq (by simp)
  | cons e₀ rest ih =>
    intro b c d
    rcases he : e₀.wf with _ | _
    · rw [show findBestAux dE lab (some b) (e₀ :: rest) =
          findBestAux dE lab (some b) rest by
        rw [findBestAux, he]
        simp]
      rw [ih]
      constructor
      · rintro (⟨h1, h2, h3⟩ | ⟨hnf, hlt⟩)
        · refine Or.inl ⟨h1, h2, ?_⟩
          intro e' he' hw
          rcases List.mem_cons.mp he' with rfl | hmem
          · rw [hw] at he
            exact absurd he (by simp)
          · exact h3 e' hmem hw
        · exact Or.inr ⟨(nearestFirst_cons_not_wf dE lab e₀ rest c d he).mpr
            hnf, hlt⟩
      · rintro (⟨h1, h2, h3⟩ | ⟨hnf, hlt⟩)
        · exact Or.inl ⟨h1, h2,
            fun e' he' hw => h3 e' (List.mem_cons_of_mem _ he') hw⟩
        · exact Or.inr ⟨(nearestFirst_cons_not_wf dE lab e₀ rest c d he).mp
            hnf, hlt⟩
    · rcases hlt : decide (dE lab e₀.labMean < b.2) with _ | _
      · -- the accumulator survives entry e₀
        have hge : b.2 ≤ dE lab e₀.labMean := by
          have := of_decide_eq_false hlt
          exact not_lt.mp this
        rw [show findBestAux dE lab (some b) (e₀ :: rest) =
            findBestAux dE lab (some b) rest by
          rw [findBestAux, he]
          simp only [if_true]
          rw [if_neg (of_decide_eq_false hlt)]]
        rw [ih]
        constructor
        · rintro (⟨h1, h2, h3⟩ | ⟨hnf, hlt'⟩)
          · refine Or.inl ⟨h1, h2, ?_⟩
            intro e' he' hw
            rcases List.mem_cons.mp he' with rfl | hmem
            · exact hge
            · exact h3 e' hmem hw
          · refine Or.inr ⟨?_, hlt'⟩
            rw [nearestFirst_cons_wf dE lab e₀ rest c d he]
            exact Or.inr ⟨hnf, lt_of_lt_of_le hlt' hge⟩
        · rintro (⟨h1, h2, h3⟩ | ⟨hnf, hlt'⟩)
          · exact Or.inl ⟨h1, h2,
              fun e' he' hw => h3 e' (List.mem_cons_of_mem _ he') hw⟩
          · rw [nearestFirst_cons_wf dE lab e₀ rest c d he] at hnf
            rcases hnf with ⟨_, hd, _⟩ | ⟨hnf', _⟩
            · exact absurd (hd ▸ hlt') (not_lt.mpr hge)
            · exact Or.inr ⟨hnf', hlt'⟩
      · -- entry e₀ replaces the accumulator
        have hlt' : dE lab e₀.labMean < b.2 := of_decide_eq_true hlt
        rw [show findBestAux dE lab (some b) (e₀ :: rest) =
            findBestAux dE lab (some (e₀.cid, dE lab e₀.labMean)) rest by
          rw [findBestAux, he]
          simp only [if_true]
          rw [if_pos hlt']]
        rw [ih]
        constructor
        · rintro (⟨h1, h2, h3⟩ | ⟨hnf, hlt''⟩)
          · refine Or.inr ⟨?_, h2 ▸ hlt'⟩
            rw [nearestFirst_cons_wf dE lab e₀ rest c d he]
            exact Or.inl ⟨h1, h2, fun e' he' hw => h2 ▸ h3 e' he' hw⟩
          · refine Or.inr ⟨?_, lt_trans hlt'' hlt'⟩
            rw [nearestFirst_cons_wf dE lab e₀ rest c d he]
            exact Or.inr ⟨hnf, hlt''⟩
        · rintro (⟨h1, h2, h3⟩ | ⟨hnf, hb⟩)
          · exact absurd (h2 ▸ hlt') (not_lt.mpr (h3 e₀
              (List.mem_cons_self _ _) he))
          · rw [nearestFirst_cons_wf dE lab e₀ rest c d he] at hnf
            rcases hnf with ⟨h1, h2, h3⟩ | ⟨hnf', hlt''⟩
            · exact Or.inl ⟨h1, h2, fun e' he' hw => h2 ▸ h3 e' he' hw⟩
            · exact Or.inr ⟨hnf', hlt''⟩

end VisionSorter

namespace VisionSorter

/-- The nearest-cluster search returns `(c, d)` iff `c, d` come from the
first well-formed entry attaining the minimal distance. -/
theorem findBest_some_iff (dE : List ℚ → List ℚ → ℚ) (lab : List ℚ) :
    ∀ (l : List ClusterEntry) (c : ℤ) (d : ℚ),
      findBest dE lab l = some (c, d) ↔ NearestFirst dE lab l c d := by
  intro l
  induction l with
  | nil =>
    intro c d
    constructor
    · intro h
      rw [findBest, findBestAux] at h
      exact absurd h (by simp)
    · rintro ⟨l₁, e, l₂, heq, _⟩
      exact absurd heq (by simp)
  | cons e₀ rest ih =>
    intro c d
    rcases he : e₀.wf with _ | _
    · rw [show findBest dE lab (e₀ :: rest) = findBest dE lab rest by
        rw [findBest, findBest, findBestAux, he]
        simp]
      rw [ih, nearestFirst_cons_not_wf dE lab e₀ rest c d he]
    · rw [show findBest dE lab (e₀ :: rest) =
          findBestAux dE lab (some (e₀.cid, dE lab e₀.labMean)) rest by
        rw [findBest, findBestAux, he]
        simp]
      rw [findBestAux_some_iff, nearestFirst_cons_wf dE lab e₀ rest c d he]
      constructor
      · rintro (⟨h1, h2, h3⟩ | h)
        · refine Or.inl ⟨h1, h2, ?_⟩
          intro e' he' hw
          rw [h2]
          exact h3 e' he' hw
        · exact Or.inr h
      · rintro (⟨h1, h2, h3⟩ | h)
        · refine Or.inl ⟨h1, h2, ?_⟩
          intro e' he' hw
          have := h3 e' he' hw
          rwa [h2] at this
        · exact Or.inr h

/-- With pairwise distinct ids (a Python dict cannot hold two equal
keys), the re-lookup `clusters.get(str(best_cluster_id))` finds exactly
the winning entry. -/
theorem find_cid_eq :
    ∀ (l₁ : List ClusterEntry) (e : ClusterEntry) (l₂ : List ClusterEntry),
      (((l₁ ++ e :: l₂).map ClusterEntry.cid)).Nodup →
      (l₁ ++ e :: l₂).find? (fun e' => e'.cid = e.cid) = some e := by
  intro l₁
  induction l₁ with
  | nil =>
    intro e l₂ _
    exact List.find?_cons_of_pos _ (by simp)
  | cons a l₁' ih =>
    intro e l₂ hnd
    rw [List.cons_append, List.map_cons, List.nodup_cons] at hnd
    rw [List.cons_append, List.find?_cons_of_neg]
    · exact ih e l₂ hnd.2
    · simp only [decide_eq_true_eq]
      intro hc
      apply hnd.1
      rw [hc]
      exact List.mem_map_of_mem _ (by simp)

end VisionSorter

namespace VisionSorter

/-- **C1** (amended) — `process_single_image` assigns
`matched_cluster_id = C` iff `C` is the FIRST cluster entry attaining the
minimal CIEDE2000 distance among the well-formed entries AND that minimal
distance is at most `C`'s `de2000_intra_max × max_scale`; being within a
cluster's own threshold does not suffice when a different cluster is
nearer (or equally near but earlier).  Cluster ids are assumed pairwise
distinct, as the keys of a Python dict are. -/
theorem process_single_image_matched_iff (dE : List ℚ → List ℚ → ℚ)
    (clusters : List ClusterEntry) (max_scale : ℚ) (lab : List ℚ) (c : ℤ)
    (hids : (clusters.map ClusterEntry.cid).Nodup) :
    (process_single_image dE clusters max_scale lab).matched = some c ↔
      ∃ l₁ e l₂, clusters = l₁ ++ e :: l₂ ∧ e.wf = true ∧ e.cid = c ∧
        (∀ e' ∈ l₁, e'.wf = true →
          dE lab e.labMean < dE lab e'.labMean) ∧
        (∀ e' ∈ l₂, e'.wf = true →
          dE lab e.labMean ≤ dE lab e'.labMean) ∧
        dE lab e.labMean ≤ e.intraMax * max_scale := by
  constructor
  · intro h
    rcases hfb : findBest dE lab clusters with _ | ⟨c₀, d⟩
    · simp [process_single_image, hfb] at h
    · simp only [process_single_image, hfb] at h
      by_cases hth : d ≤ lookupIntraMax clusters c₀ * max_scale
      · rw [if_pos hth] at h
        obtain rfl : c₀ = c := by simpa using h
        obtain ⟨l₁, e, l₂, heq, hwf, hcid, hd, h₁, h₂⟩ :=
          (findBest_some_iff dE lab clusters c₀ d).mp hfb
        have hlook : lookupIntraMax clusters c₀ = e.intraMax := by
          have hf := find_cid_eq l₁ e l₂ (heq ▸ hids)
          rw [hcid] at hf
          rw [lookupIntraMax, heq, hf]
        refine ⟨l₁, e, l₂, heq, hwf, hcid, ?_, ?_, ?_⟩
        · intro e' he' hw
          have := h₁ e' he' hw
          rwa [hd] at this
        · intro e' he' hw
          have := h₂ e' he' hw
          rwa [hd] at this
        · rw [hlook] at hth
          rwa [hd] at hth
      · rw [if_neg hth] at h
        exact absurd h (by simp)
  · rintro ⟨l₁, e, l₂, heq, hwf, hcid, h₁, h₂, hth⟩
    have hfb : findBest dE lab clusters = some (c, dE lab e.labMean) :=
      (findBest_some_iff dE lab clusters c (dE lab e.labMean)).mpr
        ⟨l₁, e, l₂, heq, hwf, hcid, rfl, h₁, h₂⟩
    have hlook : lookupIntraMax clusters c = e.intraMax := by
      have hf := find_cid_eq l₁ e l₂ (heq ▸ hids)
      rw [hcid] at hf
      rw [lookupIntraMax, heq, hf]
    simp only [process_single_image, hfb]
    rw [if_pos (show dE lab e.labMean ≤ lookupIntraMax clusters c * max_scale
      by rw [hlook]; exact hth)]

end VisionSorter

namespace VisionSorter

/-- Concrete stand-in for the CIEDE2000 distance used in the C1
counterexample: the L1 distance of the LAB vectors.  On the only pairs
the run below evaluates — identical vectors — it returns `0`, exactly as
CIEDE2000 does (identity of indiscernibles, the documented contract of
the colour-science library). -/
def dE_L1 (u v : List ℚ) : ℚ := ((u.zip v).map (fun p => |p.1 - p.2|)).sum

/-- Clusters of the C1 counterexample run: two entries with the same
centre `[10, 0, 0]` and `de2000_intra_max = 0`. -/
def c1Clusters : List ClusterEntry :=
  [⟨0, [10, 0, 0], 0⟩, ⟨1, [10, 0, 0], 0⟩]

/-- Counterexample to **C1** as stated: an image whose LAB vector equals
both cluster centres has distance `0 ≤ 0 × 1.1` to cluster 1's centre, so
the claim's "iff" demands `matched_cluster_id = 1`; but the loop keeps the
first nearest entry, cluster 0, so the image is assigned to 0 and not
to 1. -/
theorem process_single_image_iff_counterexample :
    (process_single_image dE_L1 c1Clusters (11 / 10) [10, 0, 0]).matched =
      some 0 ∧
    dE_L1 [10, 0, 0] [10, 0, 0] ≤ (0 : ℚ) * (11 / 10) ∧
    ¬((process_single_image dE_L1 c1Clusters (11 / 10) [10, 0, 0]).matched =
      some 1) := by
  refine ⟨?_, ?_, ?_⟩
  · norm_num [process_single_image, findBest, findBestAux, dE_L1,
      c1Clusters, ClusterEntry.wf, lookupIntraMax, List.find?]
  · norm_num [dE_L1]
  · norm_num [process_single_image, findBest, findBestAux, dE_L1,
      c1Clusters, ClusterEntry.wf, lookupIntraMax, List.find?]

/-- Calibration of the C1 witness: one cluster, id 7, intra-max `5.0`. -/
def c1Cal : List ClusterEntry := [⟨7, [1, 2, 3], 5⟩]

/-- Distance stand-ins realising the claim's numeric example: constants
`5.4` and `5.6`. -/
def dE54 : List ℚ → List ℚ → ℚ := fun _ _ => 27 / 5

/-- Constant distance `5.6`. -/
def dE56 : List ℚ → List ℚ → ℚ := fun _ _ => 28 / 5

/-- Witness for C1 (amended): with `max_scale = 1.1` and intra-max `5.0`,
a distance of `5.4` is classified into the nearest cluster and `5.6` is
not. -/
theorem process_single_image_matched_iff_witness :
    (process_single_image dE54 c1Cal (11 / 10) [0, 0, 0]).matched =
      some 7 ∧
    ¬((process_single_image dE56 c1Cal (11 / 10) [0, 0, 0]).matched =
      some 7) := by
  constructor
  · exact (process_single_image_matched_iff dE54 c1Cal (11 / 10) [0, 0, 0] 7
      (by decide)).mpr
      ⟨[], ⟨7, [1, 2, 3], 5⟩, [], rfl, rfl, rfl, by simp, by simp,
        by norm_num [dE54]⟩
  · intro hmatch
    obtain ⟨l₁, e, l₂, heq, hwf, hcid, h₁, h₂, hth⟩ :=
      (process_single_image_matched_iff dE56 c1Cal (11 / 10) [0, 0, 0] 7
        (by decide)).mp hmatch
    rcases l₁ with _ | ⟨a, l₁'⟩
    · obtain ⟨rfl, _⟩ : (⟨7, [1, 2, 3], 5⟩ : ClusterEntry) = e ∧ [] = l₂ := by
        simpa [c1Cal] using heq
      norm_num [dE56] at hth
    · have hlen := congrArg List.length heq
      simp [c1Cal] at hlen

end VisionSorter
